import Mathlib

set_option maxRecDepth 100000

/-!
Verification of the job/group resource core of the terraform-provider-aap
repository: JSON request-body construction, HTTP response reconciliation
and the Launch/Refresh orchestration, embedded shallowly in Lean.
-/

namespace AAP

/-- Abstract JSON values, as produced by decoding a response body.  Numbers
are kept as their source lexeme (the Go code never does arithmetic on
them), objects as association lists in source order. -/
inductive Json where
  | null
  | bool (b : Bool)
  | num (lexeme : String)
  | str (s : String)
  | arr (elems : List Json)
  | obj (members : List (String × Json))

/-- JSON insignificant whitespace: space, tab, line feed, carriage
return. -/
def isWs (c : Char) : Bool :=
  c.toNat = 32 || c.toNat = 9 || c.toNat = 10 || c.toNat = 13

/-- Decimal digit test on characters, by code point. -/
def isDigit (c : Char) : Bool := 47 < c.toNat && c.toNat < 58

/-- Drop leading JSON whitespace. -/
def skipWs (cs : List Char) : List Char :=
  match cs with
  | c :: rest => if isWs c then skipWs rest else cs
  | [] => []

/-- Value of one hexadecimal digit, if it is one (code points 0-9, a-f,
A-F). -/
def hexDigit (c : Char) : Option Nat :=
  let n := c.toNat
  if 47 < n ∧ n < 58 then some (n - 48)
  else if 96 < n ∧ n < 103 then some (n - 87)
  else if 64 < n ∧ n < 71 then some (n - 55)
  else none

/-- Read the body of a JSON string after its opening quote, decoding the
escape sequences; yields the decoded characters and the rest of the
input.  Control characters below U+0020 are rejected, as in RFC 8259. -/
def strBody : List Char → Option (List Char × List Char)
  | [] => none
  | '"' :: rest => some ([], rest)
  | '\\' :: esc =>
    match esc with
    | '"' :: cs => (strBody cs).map (fun p => ('"' :: p.1, p.2))
    | '\\' :: cs => (strBody cs).map (fun p => ('\\' :: p.1, p.2))
    | '/' :: cs => (strBody cs).map (fun p => ('/' :: p.1, p.2))
    | 'b' :: cs => (strBody cs).map (fun p => (Char.ofNat 8 :: p.1, p.2))
    | 'f' :: cs => (strBody cs).map (fun p => (Char.ofNat 12 :: p.1, p.2))
    | 'n' :: cs => (strBody cs).map (fun p => ('\n' :: p.1, p.2))
    | 'r' :: cs => (strBody cs).map (fun p => ('\r' :: p.1, p.2))
    | 't' :: cs => (strBody cs).map (fun p => ('\t' :: p.1, p.2))
    | 'u' :: a :: b :: c :: d :: cs =>
      match hexDigit a, hexDigit b, hexDigit c, hexDigit d with
      | some va, some vb, some vc, some vd =>
        (strBody cs).map (fun p => (Char.ofNat (((va * 16 + vb) * 16 + vc) * 16 + vd) :: p.1, p.2))
      | _, _, _, _ => none
    | _ => none
  | c :: cs =>
    if c.toNat < 32 then none
    else (strBody cs).map (fun p => (c :: p.1, p.2))

/-- Take the maximal run of decimal digits. -/
def digitRun : List Char → List Char × List Char
  | [] => ([], [])
  | c :: cs =>
    if isDigit c then
      let p := digitRun cs
      (c :: p.1, p.2)
    else ([], c :: cs)

/-- Read a JSON number lexeme (sign, integer part without leading zeros,
optional fraction, optional exponent), returning it unevaluated. -/
def numLexeme (cs : List Char) : Option (String × List Char) :=
  let signed : Bool × List Char := match cs with
    | '-' :: rest => (true, rest)
    | _ => (false, cs)
  match digitRun signed.2 with
  | ([], _) => none
  | (d :: ds, afterInt) =>
    if d = '0' && ds ≠ [] then none
    else
      let intPart := d :: ds
      let fracStep : Option (List Char × List Char) := match afterInt with
        | '.' :: rest =>
          match digitRun rest with
          | ([], _) => none
          | (fs, afterFrac) => some ('.' :: fs, afterFrac)
        | _ => some ([], afterInt)
      match fracStep with
      | none => none
      | some (fracPart, afterFrac) =>
        let expStep : Option (List Char × List Char) :=
          match afterFrac with
          | 'e' :: rest | 'E' :: rest =>
            let sgn : List Char × List Char := match rest with
              | '+' :: r => (['e', '+'], r)
              | '-' :: r => (['e', '-'], r)
              | _ => (['e'], rest)
            match digitRun sgn.2 with
            | ([], _) => none
            | (es, afterExp) => some (sgn.1 ++ es, afterExp)
          | _ => some ([], afterFrac)
        match expStep with
        | none => none
        | some (expPart, rest) =>
          let lex := (if signed.1 then ['-'] else []) ++ intPart ++ fracPart ++ expPart
          some (String.mk lex, rest)

/-- Fuel-bounded JSON reader, one function so that recursion is structural
on the fuel and reduces in the kernel.  `mode` 0 reads one value; `mode` 1
reads one or more comma-separated array elements up to `]` and wraps them
in `Json.arr`; any other `mode` reads one or more object members up to the
closing brace and wraps them in `Json.obj`. -/
def jsonRun : Nat → Nat → List Char → Option (Json × List Char)
  | 0, _, _ => none
  | fuel + 1, 0, cs =>
    (match skipWs cs with
     | [] => none
     | 'n' :: 'u' :: 'l' :: 'l' :: rest => some (.null, rest)
     | 't' :: 'r' :: 'u' :: 'e' :: rest => some (.bool true, rest)
     | 'f' :: 'a' :: 'l' :: 's' :: 'e' :: rest => some (.bool false, rest)
     | '"' :: rest => (strBody rest).map (fun p => (.str (String.mk p.1), p.2))
     | '\x7b' :: rest =>
       (match skipWs rest with
        | '\x7d' :: rest2 => some (.obj [], rest2)
        | other => jsonRun fuel 2 other)
     | '[' :: rest =>
       (match skipWs rest with
        | ']' :: rest2 => some (.arr [], rest2)
        | other => jsonRun fuel 1 other)
     | c :: rest =>
       if c = '-' || isDigit c then
         (numLexeme (c :: rest)).map (fun p => (.num p.1, p.2))
       else none)
  | fuel + 1, 1, cs =>
    (match jsonRun fuel 0 cs with
     | none => none
     | some (v, rest) =>
       match skipWs rest with
       | ',' :: rest2 =>
         (match jsonRun fuel 1 rest2 with
          | some (.arr vs, rest3) => some (.arr (v :: vs), rest3)
          | _ => none)
       | ']' :: rest2 => some (.arr [v], rest2)
       | _ => none)
  | fuel + 1, _, cs =>
    (match skipWs cs with
     | '"' :: cs1 =>
       (match strBody cs1 with
        | none => none
        | some (key, rest1) =>
          match skipWs rest1 with
          | ':' :: rest2 =>
            (match jsonRun fuel 0 rest2 with
             | none => none
             | some (v, rest3) =>
               match skipWs rest3 with
               | ',' :: rest4 =>
                 (match jsonRun fuel 2 rest4 with
                  | some (.obj ms, rest5) => some (.obj ((String.mk key, v) :: ms), rest5)
                  | _ => none)
               | '\x7d' :: rest4 => some (.obj [(String.mk key, v)], rest4)
               | _ => none)
          | _ => none)
     | _ => none)

/-- Parse a complete JSON document: one value and nothing but trailing
whitespace after it, as `encoding/json.Unmarshal` requires.  `none` means
the bytes are not valid JSON. -/
def jsonParse (s : String) : Option Json :=
  match jsonRun (s.toList.length + 2) 0 s.toList with
  | some (j, rest) => if skipWs rest = [] then some j else none
  | none => none

/-! Association-list helpers mirroring Go map semantics: later inserts on
the same key overwrite, key order is insertion order. -/

/-- Insert or overwrite a key in an association list, keeping the position
of an existing key. -/
def upsert (k : String) (v : α) : List (String × α) → List (String × α)
  | [] => [(k, v)]
  | (k1, v1) :: rest => if k1 = k then (k, v) :: rest else (k1, v1) :: upsert k v rest

/-- Collapse duplicate keys the way decoding into a Go map does: the last
occurrence of a key wins; first-occurrence order is kept. -/
def dedupFields (fs : List (String × α)) : List (String × α) :=
  fs.foldl (fun m kv => upsert kv.1 kv.2 m) []

/-- First value bound to a key. -/
def lookupKey (k : String) : List (String × α) → Option α
  | [] => none
  | (k1, v1) :: rest => if k1 = k then some v1 else lookupKey k rest

/-- Escape one character for a JSON string literal (quote, backslash and
control characters; everything else is itself). -/
def escChar (c : Char) : List Char :=
  if c = '"' then ['\\', '"']
  else if c = '\\' then ['\\', '\\']
  else if c = '\n' then ['\\', 'n']
  else if c = '\r' then ['\\', 'r']
  else if c = '\t' then ['\\', 't']
  else if c.toNat < 32 then
    let lo := c.toNat % 16
    let hi := c.toNat / 16
    let hexC := fun (n : Nat) => if n < 10 then Char.ofNat ('0'.toNat + n) else Char.ofNat ('a'.toNat + n - 10)
    ['\\', 'u', '0', '0', hexC hi, hexC lo]
  else [c]

/-- Render a JSON string literal with its quotes. -/
def quoteStr (s : String) : String :=
  String.mk ('"' :: s.toList.foldr (fun c acc => escChar c ++ acc) ['"'])

/-- Lexicographic (bytewise, as Go compares map keys) order on character
lists. -/
def charsLt : List Char → List Char → Bool
  | [], [] => false
  | [], _ :: _ => true
  | _ :: _, [] => false
  | a :: as, b :: bs =>
    if a.toNat < b.toNat then true
    else if b.toNat < a.toNat then false
    else charsLt as bs

/-- Order-preserving insertion of one pair into a key-sorted list. -/
def insertByKey (kv : String × String) : List (String × String) → List (String × String)
  | [] => [kv]
  | hd :: tl => if charsLt kv.1.toList hd.1.toList then kv :: hd :: tl else hd :: insertByKey kv tl

/-- Sort an association list by key, as `json.Marshal` does for Go maps. -/
def sortByKey (l : List (String × String)) : List (String × String) :=
  l.foldr insertByKey []

/-- Render a Go `map[string]string` as `json.Marshal` does: keys sorted,
members comma-separated inside braces. -/
def marshalStringMap (m : List (String × String)) : String :=
  let members := (sortByKey m).map (fun kv => quoteStr kv.1 ++ ":" ++ quoteStr kv.2)
  "\x7b" ++ String.intercalate "," members ++ "\x7d"

/-- Merge of two Go string maps, second overriding the first (source
`mergeStringMaps`, test file). -/
def mergeStringMaps (m1 m2 : List (String × String)) : List (String × String) :=
  dedupFields (m1 ++ m2)

/-! Tri-state attribute values of the terraform-plugin-framework
(`types.String`, `types.Int64`, `types.List`, `jsontypes.Normalized`): a
value is unknown, null or known. -/

/-- Tri-state optional attribute value: Unknown (not yet resolved), Null
(deliberately absent) or Known. -/
inductive OptVal (α : Type) where
  | unknown
  | null
  | known (value : α)
deriving DecidableEq

/-- Go `types.String.ValueString`: the known string, or "" when null or
unknown. -/
def OptVal.ValueString : OptVal String → String
  | .known s => s
  | _ => ""

/-- Go `types.Int64.ValueInt64`: the known integer, or 0 when null or
unknown. -/
def OptVal.ValueInt64 : OptVal Int → Int
  | .known i => i
  | _ => 0

/-- Go `IsValueProvided`: a value is provided when it is neither null nor
unknown. -/
def OptVal.IsValueProvided : OptVal α → Bool
  | .known _ => true
  | _ => false

/-! Field decoding of `encoding/json.Unmarshal` into tagged Go structs:
absent and null JSON members leave the zero value, a member of the wrong
JSON kind is an unmarshal error. -/

/-- Decode a string-typed struct field from a decoded JSON object: absent
or null yields Go's zero string, a non-string member is an unmarshal
error. -/
def fieldStr (m : List (String × Json)) (key : String) : Except String String :=
  match lookupKey key m with
  | none => .ok ""
  | some .null => .ok ""
  | some (.str s) => .ok s
  | some _ => .error ("json: cannot unmarshal into Go string field " ++ key)

/-- Read an optionally signed decimal integer lexeme, the only JSON number
shape `encoding/json` accepts for an int64 field. -/
def lexInt (s : String) : Option Int :=
  let step : List Char → Option Int := fun ds =>
    match digitRun ds with
    | (digits, []) =>
      if digits = [] then none
      else some (Int.ofNat (digits.foldl (fun acc c => acc * 10 + (c.toNat - '0'.toNat)) 0))
    | _ => none
  match s.toList with
  | '-' :: rest => (step rest).map (fun i => -i)
  | other => step other

/-- Decode an int64-typed struct field: absent or null yields 0, an
integer number is its value, anything else is an unmarshal error. -/
def fieldInt (m : List (String × Json)) (key : String) : Except String Int :=
  match lookupKey key m with
  | none => .ok 0
  | some .null => .ok 0
  | some (.num lex) =>
    match lexInt lex with
    | some i => .ok i
    | none => .error ("json: cannot unmarshal number into Go int64 field " ++ key)
  | some _ => .error ("json: cannot unmarshal into Go int64 field " ++ key)

/-! The group resource (source `internal/provider/group_resource.go`). -/

/-- Group AAP API model (source `GroupAPIModel`): the JSON-tagged struct
`json.Unmarshal` fills from a response body. -/
structure GroupAPIModel where
  InventoryId : Int
  Name : String
  Description : String
  URL : String
  Variables : String
  Id : Int
deriving DecidableEq

/-- Zero value of `GroupAPIModel`, as Go declares it before unmarshalling. -/
def GroupAPIModel.zero : GroupAPIModel :=
  ⟨0, "", "", "", "", 0⟩

/-- Effect of `json.Unmarshal(body, &GroupAPIModel)` on an already parsed
JSON document: an object fills the tagged fields (tags `inventory`,
`name`, `description`, `url`, `variables`, `id`), JSON null leaves the
zero value, any other document kind is an unmarshal error. -/
def decodeGroupAPI : Json → Except String GroupAPIModel
  | .null => .ok GroupAPIModel.zero
  | .obj fs =>
    let m := dedupFields fs
    do
      let inv ← fieldInt m "inventory"
      let name ← fieldStr m "name"
      let desc ← fieldStr m "description"
      let url ← fieldStr m "url"
      let vars ← fieldStr m "variables"
      let id ← fieldInt m "id"
      return ⟨inv, name, desc, url, vars, id⟩
  | _ => .error "json: cannot unmarshal into Go value of type GroupAPIModel"

/-- GroupResourceModel (source): the resource's Terraform attribute set. -/
structure GroupResourceModel where
  InventoryId : OptVal Int
  Name : OptVal String
  Description : OptVal String
  URL : OptVal String
  Variables : OptVal String
  Id : OptVal Int
deriving DecidableEq

/-- Source `GroupResourceModel.ParseHttpResponse` (lines 269-297): on an
unmarshal failure the diagnostics gain an error and the receiver is
returned unmodified; on success inventory, url, id and name are set as
known values, while description and variables map the empty string (the
absent field) to null. -/
def GroupResourceModel.ParseHttpResponse (r : GroupResourceModel) (body : String) :
    GroupResourceModel × Option String :=
  match jsonParse body with
  | none => (r, some "Error parsing JSON response from AAP")
  | some j =>
    match decodeGroupAPI j with
    | .error e => (r, some e)
    | .ok a =>
      ({ r with
         InventoryId := .known a.InventoryId
         URL := .known a.URL
         Id := .known a.Id
         Name := .known a.Name
         Description := if a.Description ≠ "" then .known a.Description else .null
         Variables := if a.Variables ≠ "" then .known a.Variables else .null }, none)

/-! The job resource.  Its implementation file is not part of the sources
here; only its unit tests are.  The definitions below therefore model the
missing code from the specification, with every behavior the unit tests
pin down (`TestParseHttpResponse`, `TestCreateRequestBody`, `TestCreateJob`,
`TestReadJob`) reproduced exactly as those tests expect it. -/

/-- Modelled from the spec: the JSON-tagged API struct of the missing
`jobResourceModel.ParseHTTPResponse` (spec section 6, response shape):
`job_type`, `url` and `status` strings plus the optional `ignored_fields`
map of field names to rejected values. -/
structure jobResourceAPIModel where
  jobType : String
  url : String
  status : String
  ignoredFields : List (String × Json)

/-- Zero value of the API struct before unmarshalling. -/
def jobResourceAPIModel.zero : jobResourceAPIModel :=
  ⟨"", "", "", []⟩

/-- Decode a map-typed struct field (`ignored_fields`): absent or null
yields the empty map, an object yields its members with Go's
duplicate-key handling, anything else is an unmarshal error. -/
def fieldMap (m : List (String × Json)) (key : String) : Except String (List (String × Json)) :=
  match lookupKey key m with
  | none => .ok []
  | some .null => .ok []
  | some (.obj fs) => .ok (dedupFields fs)
  | some _ => .error ("json: cannot unmarshal into Go map field " ++ key)

/-- Modelled from the spec: effect of `json.Unmarshal` into the missing
job API struct on a parsed JSON document. -/
def decodeJobAPI : Json → Except String jobResourceAPIModel
  | .null => .ok jobResourceAPIModel.zero
  | .obj fs =>
    let m := dedupFields fs
    do
      let ty ← fieldStr m "job_type"
      let url ← fieldStr m "url"
      let status ← fieldStr m "status"
      let ign ← fieldMap m "ignored_fields"
      return ⟨ty, url, status, ign⟩
  | _ => .error "json: cannot unmarshal into Go value of type jobResourceAPIModel"

/-- Modelled from the spec: the missing `jobResourceModel` attribute set
(spec section 3, JobResourceState), with the tri-state representation of
every attribute; `IgnoredFields` is a tri-state list so that the null
list and the known empty list stay distinguishable. -/
structure jobResourceModel where
  TemplateID : OptVal Int
  JobType : OptVal String
  URL : OptVal String
  Status : OptVal String
  InventoryID : OptVal Int
  ExtraVars : OptVal String
  IgnoredFields : OptVal (List String)
deriving DecidableEq

/-- Fresh zero value of the model: every attribute null, as the framework
zero values are. -/
def jobResourceModel.empty : jobResourceModel :=
  ⟨.null, .null, .null, .null, .null, .null, .null⟩

/-- Modelled from the spec: the missing `jobResourceModel.ParseHTTPResponse`
(spec section 4.2).  Malformed JSON or an unmarshal failure returns an
error with the receiver unmodified.  On success `job_type`, `url` and
`status` overwrite the state, an empty (absent) string mapping to null
(spec 4.2); the ignored-fields map is recomputed wholesale into the list
of its keys, and when the map is absent or empty the attribute is the
null list — `TestParseHttpResponse` pins this down by expecting
`types.ListNull` for the body with no `ignored_fields` member.  Template
id, inventory id and extra vars are never touched by a response. -/
def jobResourceModel.ParseHTTPResponse (r : jobResourceModel) (body : String) :
    jobResourceModel × Option String :=
  match jsonParse body with
  | none => (r, some "error parsing JSON response from AAP")
  | some j =>
    match decodeJobAPI j with
    | .error e => (r, some e)
    | .ok a =>
      ({ r with
         JobType := if a.jobType ≠ "" then .known a.jobType else .null
         URL := if a.url ≠ "" then .known a.url else .null
         Status := if a.status ≠ "" then .known a.status else .null
         IgnoredFields :=
           if a.ignoredFields.isEmpty then .null
           else .known (a.ignoredFields.map Prod.fst) }, none)

/-- Modelled from the spec: the missing `jobResourceModel.CreateRequestBody`
(spec section 4.1).  A provided `extraVars` document is parsed and
embedded as a JSON object under `extra_vars` (a malformed document is a
MalformedInput error before any network call); a provided inventory id is
embedded as an integer under `inventory`; when nothing is provided there
is no body at all (`none`), and unknown values are skipped exactly like
null ones, as `TestCreateRequestBody` expects. -/
def jobResourceModel.CreateRequestBody (r : jobResourceModel) :
    Except String (Option Json) :=
  let evStep : Except String (List (String × Json)) :=
    match r.ExtraVars with
    | .known s =>
      match jsonParse s with
      | some j => .ok [("extra_vars", j)]
      | none => .error "error parsing extra_vars: invalid JSON"
    | _ => .ok []
  match evStep with
  | .error e => .error e
  | .ok evFields =>
    let fields :=
      match r.InventoryID with
      | .known i => evFields ++ [("inventory", Json.num (toString i))]
      | _ => evFields
    if fields.isEmpty then .ok none else .ok (some (.obj fields))

/-! The mock transport of the unit tests (source `MockHTTPClient`), kept
verbatim: canned responses keyed by path, an accepted-verb set, a
configured status code; request data, when present, is merged into the
canned response before it is marshalled. -/

/-- Canned response of template 1 and of job 1 (source `mResponse1`). -/
def mResponse1 : List (String × String) := [("status", "running"), ("type", "check")]

/-- Canned response of template 2 (source `mResponse2`). -/
def mResponse2 : List (String × String) := [("status", "pending"), ("playbook", "ansible_aws.yaml")]

/-- Canned response of job 2 (source `mResponse3`). -/
def mResponse3 : List (String × String) := [("status", "complete"), ("execution_environment", "3")]

/-- Source `MockHTTPClient`: accepted methods and the status code returned
on a matched path. -/
structure MockHTTPClient where
  acceptMethods : List String
  httpCode : Nat
deriving DecidableEq

/-- Unmarshal request bytes into a Go `map[string]string`: the document
must be an object of string values (or null, giving the empty map). -/
def jsonToStringMap : Json → Option (List (String × String))
  | .null => some []
  | .obj fs =>
    (dedupFields fs).foldr
      (fun kv acc =>
        match kv.2, acc with
        | .str s, some m => some ((kv.1, s) :: m)
        | _, _ => none)
      (some [])
  | _ => none

/-- Source `MockHTTPClient.doRequest` (test file lines 558-592): a method
outside the accepted set yields the all-nil triple; an unknown path
yields status 404 with no body; otherwise the canned response, merged
with the request data when there is any, is marshalled and returned with
the configured status code.  The request body travels as its parsed JSON
document; a body that does not decode into a string map is the unmarshal
error the Go code returns. -/
def mockConfig : List (String × List (String × String)) :=
  [("/api/v2/job_templates/1/launch/", mResponse1),
   ("/api/v2/job_templates/2/launch/", mResponse2),
   ("/api/v2/jobs/1/", mResponse1),
   ("/api/v2/jobs/2/", mResponse3)]

def MockHTTPClient.doRequest (c : MockHTTPClient) (method path : String) (data : Option Json) :
    Option Nat × Option String × Option String :=
  if (c.acceptMethods.contains method) = false then (none, none, none)
  else
    match lookupKey path mockConfig with
    | none => (some 404, none, none)
    | some response =>
      match data with
      | none => (some c.httpCode, some (marshalStringMap response), none)
      | some body =>
        match jsonToStringMap body with
        | none => (none, none, some "json: cannot unmarshal request data into map[string]string")
        | some m => (some c.httpCode, some (marshalStringMap (mergeStringMaps response m)), none)

/-- Modelled from the spec: the error kinds of the missing orchestrator
(spec section 7). -/
inductive JobError where
  | malformedInput (msg : String)
  | transportError (msg : String)
  | nilResponse
  | remoteRejection (statusCode : Nat)
  | responseParse (msg : String)
deriving DecidableEq

/-- Modelled from the spec: the missing `JobResource` holding the injected
transport. -/
structure JobResource where
  client : MockHTTPClient

/-- Launch path of a template id (spec section 4.3, step 3). -/
def launchPath (templateId : Int) : String :=
  "/api/v2/job_templates/" ++ toString templateId ++ "/launch/"

/-- Modelled from the spec: the missing `JobResource.CreateJob` (spec
section 4.3): build the request body (a MalformedInput error stops before
any network call), POST it to the launch path of the template id, treat a
nil response or a status other than 201 Created as fatal for the attempt
with the state untouched, and on success reconcile the response into the
state.  The second component of the result records every transport call
issued, as (method, path) pairs. -/
def JobResource.CreateJob (j : JobResource) (r : jobResourceModel) :
    (jobResourceModel × Option JobError) × List (String × String) :=
  match r.CreateRequestBody with
  | .error e => ((r, some (.malformedInput e)), [])
  | .ok body =>
    let postURL := launchPath r.TemplateID.ValueInt64
    let calls := [("POST", postURL)]
    match j.client.doRequest "POST" postURL body with
    | (_, _, some e) => ((r, some (.transportError e)), calls)
    | (none, _, none) => ((r, some .nilResponse), calls)
    | (some code, respBody, none) =>
      if code = 201 then
        let pr := r.ParseHTTPResponse ((respBody.map id).getD "")
        ((pr.1, pr.2.map JobError.responseParse), calls)
      else ((r, some (.remoteRejection code)), calls)

/-- Modelled from the spec: the missing `JobResource.ReadJob` (spec
section 4.4): an empty url is a no-op returning the state unchanged with
no transport call; otherwise GET the url, treat a nil response or a
status other than 200 OK as fatal with the state untouched, and on
success reconcile the response into the state.  The second component
records every transport call issued. -/
def JobResource.ReadJob (j : JobResource) (r : jobResourceModel) :
    (jobResourceModel × Option JobError) × List (String × String) :=
  let jobURL := r.URL.ValueString
  if jobURL = "" then ((r, none), [])
  else
    let calls := [("GET", jobURL)]
    match j.client.doRequest "GET" jobURL none with
    | (_, _, some e) => ((r, some (.transportError e)), calls)
    | (none, _, none) => ((r, some .nilResponse), calls)
    | (some code, respBody, none) =>
      if code = 200 then
        let pr := r.ParseHTTPResponse ((respBody.map id).getD "")
        ((pr.1, pr.2.map JobError.responseParse), calls)
      else ((r, some (.remoteRejection code)), calls)

/-! Concrete fixtures, taken verbatim from the unit tests of the
repository. -/

/-- Initial state of every `TestParseHttpResponse` case: template id 1,
inventory id 2, extra vars null, everything else at its zero (null)
value. -/
def testInitState : jobResourceModel :=
  { jobResourceModel.empty with TemplateID := .known 1, InventoryID := .known 2 }

/-- Response body of the "no ignored fields" test case. -/
def bodyNoIgnored : String :=
  "\x7b\"job_type\": \"run\", \"url\": \"/api/v2/jobs/14/\", \"status\": \"pending\"\x7d"

/-- Response body of the "ignored fields" test case (its whitespace
included). -/
def bodyIgnored : String :=
  "\x7b\"job_type\": \"run\", \"url\": \"/api/v2/jobs/14/\", \"status\": \n\t\t\t\"pending\", \"ignored_fields\": \x7b\"extra_vars\": \"\x7b\\\"bucket_state\\\":\\\"absent\\\"\x7d\"\x7d\x7d"

/-- Response body of the "bad json" test case: not valid JSON. -/
def bodyBad : String := "\x7bjob_type: run\x7d"

/-- Parsed form of `bodyNoIgnored`. -/
def jsonNoIgnored : Json :=
  .obj [("job_type", .str "run"), ("url", .str "/api/v2/jobs/14/"), ("status", .str "pending")]

/-- Decoded API struct of `bodyNoIgnored`. -/
def apiNoIgnored : jobResourceAPIModel :=
  ⟨"run", "/api/v2/jobs/14/", "pending", []⟩

/-- Parsed form of `bodyIgnored`. -/
def jsonIgnored : Json :=
  .obj [("job_type", .str "run"), ("url", .str "/api/v2/jobs/14/"), ("status", .str "pending"),
        ("ignored_fields", .obj [("extra_vars", .str "\x7b\"bucket_state\":\"absent\"\x7d")])]

/-- Decoded API struct of `bodyIgnored`. -/
def apiIgnored : jobResourceAPIModel :=
  ⟨"run", "/api/v2/jobs/14/", "pending",
   [("extra_vars", .str "\x7b\"bucket_state\":\"absent\"\x7d")]⟩

/-- Extra-vars document of the `TestCreateRequestBody` cases. -/
def extraVarsDoc : String :=
  "\x7b\"test_name\":\"extra_vars\", \"provider\":\"aap\"\x7d"

/-- Parsed members of `extraVarsDoc`. -/
def extraVarsMembers : List (String × Json) :=
  [("test_name", .str "extra_vars"), ("provider", .str "aap")]

/-- Group state with every attribute null, before any response has been
reconciled. -/
def groupEmpty : GroupResourceModel :=
  ⟨.null, .null, .null, .null, .null, .null⟩

/-- The field of name `k` in a successfully built request body, when the
body exists and is a JSON object. -/
def bodyLookup (k : String) : Except String (Option Json) → Option Json
  | .ok (some (.obj fs)) => lookupKey k fs
  | _ => none

/-! Claim theorems. -/

/-- C2: for every byte sequence that is not valid JSON, both response
reconcilers (the group resource's `ParseHttpResponse` from the source and
the job resource's `ParseHTTPResponse`) report a parse error and return
the prior resource state with every field exactly as it was — no partial
overwrite. -/
theorem c2_invalid_json_leaves_state_untouched
    (g : GroupResourceModel) (r : jobResourceModel) (body : String)
    (hbad : jsonParse body = none) :
    g.ParseHttpResponse body = (g, some "Error parsing JSON response from AAP") ∧
    r.ParseHTTPResponse body = (r, some "error parsing JSON response from AAP") := by
  unfold GroupResourceModel.ParseHttpResponse jobResourceModel.ParseHTTPResponse
  rw [hbad]
  exact ⟨rfl, rfl⟩

/-- Witness for C2 at the "bad json" unit-test body: the group state and
the job test state survive `\x7bjob_type: run\x7d` unchanged, with the
parse errors reported. -/
theorem c2_invalid_json_witness :
    GroupResourceModel.ParseHttpResponse groupEmpty bodyBad =
      (groupEmpty, some "Error parsing JSON response from AAP") ∧
    jobResourceModel.ParseHTTPResponse testInitState bodyBad =
      (testInitState, some "error parsing JSON response from AAP") :=
  c2_invalid_json_leaves_state_untouched groupEmpty testInitState bodyBad rfl

/-- C4: when inventory override and extra vars are both null, the request
body builder produces no body at all (nil), the launch-with-defaults
signal. -/
theorem c4_both_null_gives_no_body (r : jobResourceModel)
    (hinv : r.InventoryID = .null) (hev : r.ExtraVars = .null) :
    r.CreateRequestBody = .ok none := by
  unfold jobResourceModel.CreateRequestBody
  rw [hinv, hev]
  rfl

/-- Witness for C4 at the "null fields" unit-test input. -/
theorem c4_both_null_witness :
    jobResourceModel.CreateRequestBody jobResourceModel.empty = .ok none :=
  c4_both_null_gives_no_body jobResourceModel.empty rfl rfl

/-- C10: when inventory override and extra vars are both unknown (not yet
resolved), the request body builder also returns a nil body and no error:
unknown values pass through this public interface exactly like null
ones. -/
theorem c10_both_unknown_gives_no_body (r : jobResourceModel)
    (hinv : r.InventoryID = .unknown) (hev : r.ExtraVars = .unknown) :
    r.CreateRequestBody = .ok none := by
  unfold jobResourceModel.CreateRequestBody
  rw [hinv, hev]
  rfl

/-- Witness for C10 at the "unknown fields" unit-test input. -/
theorem c10_both_unknown_witness :
    jobResourceModel.CreateRequestBody
      { jobResourceModel.empty with InventoryID := .unknown, ExtraVars := .unknown } = .ok none :=
  c10_both_unknown_gives_no_body _ rfl rfl

/-- C6: a Refresh (`ReadJob`) whose state has an empty or absent url is a
successful no-op: the state comes back unchanged (for a not-yet-created
resource that is the empty/default state), no error is reported, and no
call at all is issued through the transport. -/
theorem c6_read_without_url_is_noop (c : MockHTTPClient) (r : jobResourceModel)
    (hurl : r.URL.ValueString = "") :
    JobResource.ReadJob ⟨c⟩ r = ((r, none), []) := by
  unfold JobResource.ReadJob
  simp [hurl]

/-- Witness for C6 at the "no url provided" unit-test input: the default
state with a GET-accepting transport comes back as the default state with
no transport call. -/
theorem c6_read_without_url_witness :
    JobResource.ReadJob ⟨⟨["GET", "get"], 200⟩⟩ jobResourceModel.empty =
      ((jobResourceModel.empty, none), []) :=
  c6_read_without_url_is_noop ⟨["GET", "get"], 200⟩ jobResourceModel.empty rfl

/-- C1 counterexample: at the "no ignored fields" unit-test input the
reconciled `ignoredFields` is the null list — the absent/not-yet-known
representation — and not the explicit empty-sequence sentinel the claim
asserts.  `TestParseHttpResponse` expects exactly this null list
(`types.ListNull`). -/
theorem c1_no_ignored_fields_counterexample :
    (testInitState.ParseHTTPResponse bodyNoIgnored).1.IgnoredFields = OptVal.null ∧
    (OptVal.null : OptVal (List String)) ≠ OptVal.known [] :=
  ⟨rfl, by decide⟩

/-- C1 (amended): for every well-formed JSON response whose decoded
ignored-fields map is empty (in particular when no `ignored_fields`
member is present), the reconciler sets `ignoredFields` to the null list
— the absent representation — rather than to an empty known sequence. -/
theorem c1_no_ignored_fields_gives_null_list (r : jobResourceModel) (body : String)
    (j : Json) (a : jobResourceAPIModel)
    (hparse : jsonParse body = some j) (hdec : decodeJobAPI j = .ok a)
    (hempty : a.ignoredFields = []) :
    (r.ParseHTTPResponse body).1.IgnoredFields = OptVal.null := by
  unfold jobResourceModel.ParseHTTPResponse
  rw [hparse]
  simp [hdec, hempty]

/-- Witness for the amended C1 at the "no ignored fields" unit-test
body. -/
theorem c1_no_ignored_fields_witness :
    (testInitState.ParseHTTPResponse bodyNoIgnored).1.IgnoredFields = OptVal.null :=
  c1_no_ignored_fields_gives_null_list testInitState bodyNoIgnored jsonNoIgnored apiNoIgnored
    rfl rfl rfl

/-- C7: for every well-formed JSON response whose decoded ignored-fields
map has the single key `extra_vars`, the reconciled `ignoredFields` is
the known sequence containing exactly `extra_vars` and nothing else. -/
theorem c7_single_ignored_field_extra_vars (r : jobResourceModel) (body : String)
    (j : Json) (a : jobResourceAPIModel) (v : Json)
    (hparse : jsonParse body = some j) (hdec : decodeJobAPI j = .ok a)
    (hsingle : a.ignoredFields = [("extra_vars", v)]) :
    (r.ParseHTTPResponse body).1.IgnoredFields = OptVal.known ["extra_vars"] := by
  unfold jobResourceModel.ParseHTTPResponse
  rw [hparse]
  simp [hdec, hsingle]

/-- Witness for C7 at the "ignored fields" unit-test body. -/
theorem c7_single_ignored_field_witness :
    (testInitState.ParseHTTPResponse bodyIgnored).1.IgnoredFields =
      OptVal.known ["extra_vars"] :=
  c7_single_ignored_field_extra_vars testInitState bodyIgnored jsonIgnored apiIgnored
    (.str "\x7b\"bucket_state\":\"absent\"\x7d") rfl rfl rfl

/-- C9: the response reconciler is deterministic and idempotent on
well-formed input: two identical fresh states reconciled from the same
bytes end identical, and reconciling the already-reconciled state from
the same bytes changes nothing further. -/
theorem c9_reconciler_deterministic_idempotent (r1 r2 : jobResourceModel) (body : String)
    (hfresh : r1 = r2) (_hwf : (jsonParse body).isSome = true) :
    r1.ParseHTTPResponse body = r2.ParseHTTPResponse body ∧
    (r1.ParseHTTPResponse body).1.ParseHTTPResponse body = r1.ParseHTTPResponse body := by
  subst hfresh
  refine ⟨rfl, ?_⟩
  unfold jobResourceModel.ParseHTTPResponse
  cases hp : jsonParse body with
  | none => rfl
  | some j =>
    cases hd : decodeJobAPI j with
    | error e => simp [hd]
    | ok a => simp [hd]

/-- Witness for C9 at the "no ignored fields" unit-test body and initial
state. -/
theorem c9_reconciler_witness :
    testInitState.ParseHTTPResponse bodyNoIgnored =
      testInitState.ParseHTTPResponse bodyNoIgnored ∧
    (testInitState.ParseHTTPResponse bodyNoIgnored).1.ParseHTTPResponse bodyNoIgnored =
      testInitState.ParseHTTPResponse bodyNoIgnored :=
  c9_reconciler_deterministic_idempotent testInitState testInitState bodyNoIgnored rfl rfl

/-- C3: whenever `extraVars` is known and is a valid JSON object, the
built request body exists, is a JSON object, and its `extra_vars` member
is exactly the parsed input document — embedded as a parsed JSON object,
not as a string. -/
theorem c3_extra_vars_embedded_as_object (r : jobResourceModel) (s : String)
    (ms : List (String × Json))
    (hev : r.ExtraVars = .known s) (hjson : jsonParse s = some (.obj ms)) :
    bodyLookup "extra_vars" r.CreateRequestBody = some (.obj ms) := by
  unfold jobResourceModel.CreateRequestBody
  rw [hev]
  cases hi : r.InventoryID <;> simp [hjson, bodyLookup, lookupKey]

/-- Witness for C3 at the "extra vars only" unit-test input. -/
theorem c3_extra_vars_witness :
    bodyLookup "extra_vars"
      (jobResourceModel.CreateRequestBody
        { jobResourceModel.empty with ExtraVars := .known extraVarsDoc }) =
      some (.obj extraVarsMembers) :=
  c3_extra_vars_embedded_as_object
    { jobResourceModel.empty with ExtraVars := .known extraVarsDoc }
    extraVarsDoc extraVarsMembers rfl rfl

/-- C8 counterexample: on the response `\x7b"inventory": 1\x7d` the group
reconciler maps the absent `name` (decoded as the empty string) to a
known empty string, not to the null representation — the claim's "any
string-valued resource field maps absent to Null" fails on the fields the
source sets unconditionally. -/
theorem c8_absent_name_counterexample :
    (groupEmpty.ParseHttpResponse "\x7b\"inventory\": 1\x7d").1.Name = OptVal.known "" ∧
    (OptVal.known "" : OptVal String) ≠ OptVal.null :=
  ⟨rfl, by decide⟩

/-- C8 (amended): only the optional fields map absence to null — the
group reconciler sends an empty decoded `description` or `variables` to
the null representation (and keeps nonempty ones known), while `name` and
`url` are always set as known strings, a known empty string when the
response omits them. -/
theorem c8_empty_string_mapping (g : GroupResourceModel) (body : String)
    (j : Json) (a : GroupAPIModel)
    (hparse : jsonParse body = some j) (hdec : decodeGroupAPI j = .ok a) :
    (g.ParseHttpResponse body).1.Description =
      (if a.Description ≠ "" then .known a.Description else .null) ∧
    (g.ParseHttpResponse body).1.Variables =
      (if a.Variables ≠ "" then .known a.Variables else .null) ∧
    (g.ParseHttpResponse body).1.Name = .known a.Name ∧
    (g.ParseHttpResponse body).1.URL = .known a.URL := by
  unfold GroupResourceModel.ParseHttpResponse
  rw [hparse]
  simp [hdec]

/-- Witness for the amended C8: a response carrying only an inventory and
a name decodes with empty description and variables, which become null,
while the absent url becomes a known empty string. -/
theorem c8_empty_string_mapping_witness :
    (groupEmpty.ParseHttpResponse "\x7b\"inventory\": 1, \"name\": \"team\"\x7d").1.Description =
      (if ("" : String) ≠ "" then .known "" else .null) ∧
    (groupEmpty.ParseHttpResponse "\x7b\"inventory\": 1, \"name\": \"team\"\x7d").1.Variables =
      (if ("" : String) ≠ "" then .known "" else .null) ∧
    (groupEmpty.ParseHttpResponse "\x7b\"inventory\": 1, \"name\": \"team\"\x7d").1.Name =
      .known "team" ∧
    (groupEmpty.ParseHttpResponse "\x7b\"inventory\": 1, \"name\": \"team\"\x7d").1.URL =
      .known "" :=
  c8_empty_string_mapping groupEmpty "\x7b\"inventory\": 1, \"name\": \"team\"\x7d"
    (.obj [("inventory", .num "1"), ("name", .str "team")])
    ⟨1, "team", "", "", "", 0⟩ rfl rfl

/-- C5: a Launch whose template id matches no remote endpoint — the
transport finds no canned response for its launch path and answers 404 —
fails with the RemoteRejection carrying status 404, issues exactly the
one POST, and returns the state untouched, so `url` stays unpopulated. -/
theorem c5_launch_unmatched_template_rejected (c : MockHTTPClient) (r : jobResourceModel)
    (b : Option Json)
    (hpost : c.acceptMethods.contains "POST" = true)
    (hmiss : lookupKey (launchPath r.TemplateID.ValueInt64) mockConfig = none)
    (hbody : r.CreateRequestBody = .ok b) :
    JobResource.CreateJob ⟨c⟩ r =
      ((r, some (.remoteRejection 404)),
       [("POST", launchPath r.TemplateID.ValueInt64)]) := by
  have hreq : MockHTTPClient.doRequest c "POST" (launchPath r.TemplateID.ValueInt64) b =
      (some 404, none, none) := by
    unfold MockHTTPClient.doRequest
    rw [hpost, hmiss]
    rfl
  simp only [JobResource.CreateJob, hbody, hreq]
  rfl

/-- Witness for C5 at the "try with non existing template id" unit-test
input (template id -1, inventory 3, a POST-accepting transport). -/
theorem c5_launch_unmatched_template_witness :
    JobResource.CreateJob ⟨⟨["POST", "post"], 201⟩⟩
        { jobResourceModel.empty with TemplateID := .known (-1), InventoryID := .known 3 } =
      (({ jobResourceModel.empty with TemplateID := .known (-1), InventoryID := .known 3 },
        some (.remoteRejection 404)),
       [("POST", launchPath (-1))]) :=
  c5_launch_unmatched_template_rejected ⟨["POST", "post"], 201⟩
    { jobResourceModel.empty with TemplateID := .known (-1), InventoryID := .known 3 }
    (some (.obj [("inventory", .num "3")])) rfl rfl rfl

end AAP
